import Mathlib

/-!
Verification of the run-tracking tracer (`tracer_langchain.ts`): the
`LangChainTracer` class (payload conversion, construction-time hydration of
the run map from an ambient traceable run tree, client adoption) and the
`RunnableTraceable` adapter.  The TypeScript source is embedded shallowly:
free-form payload values become opaque strings, JavaScript objects become
association lists, `undefined`-able fields become `Option`, thrown errors
become `Except`, and the externally owned `RunTree` graph becomes a finite
heap of nodes referenced by id.
-/

/-- A `KVMap` (free-form JS object) as an association list of opaque
string values; on lookup a later binding shadows an earlier one, matching
JS object-spread semantics. -/
abbrev KVMap : Type := List (String × String)

/-- The runtime-introspection data returned by the external collaborator
`getRuntimeEnvironment`, treated as one opaque value. -/
abbrev RuntimeEnv : Type := String

/-- The `Run` record of `tracer_langchain.ts` (interface `Run extends
BaseRun`): a traced operation with its lifecycle fields.  `child_runs`
holds nested records, hence the nested inductive. -/
inductive RunRecord : Type where
  | mk
      (id : String)
      (parent_run_id : Option String)
      (child_runs : List RunRecord)
      (child_execution_order : Nat)
      (trace_id : Option String)
      (dotted_order : Option String)
      (start_time : Option Nat)
      (end_time : Option Nat)
      (inputs : KVMap)
      (outputs : Option KVMap)
      (events : Option (List KVMap))
      (error : Option String)
      (extra : Option KVMap)

def RunRecord.id : RunRecord → String
  | .mk i _ _ _ _ _ _ _ _ _ _ _ _ => i

def RunRecord.parent_run_id : RunRecord → Option String
  | .mk _ p _ _ _ _ _ _ _ _ _ _ _ => p

def RunRecord.child_runs : RunRecord → List RunRecord
  | .mk _ _ c _ _ _ _ _ _ _ _ _ _ => c

def RunRecord.child_execution_order : RunRecord → Nat
  | .mk _ _ _ o _ _ _ _ _ _ _ _ _ => o

def RunRecord.trace_id : RunRecord → Option String
  | .mk _ _ _ _ t _ _ _ _ _ _ _ _ => t

def RunRecord.dotted_order : RunRecord → Option String
  | .mk _ _ _ _ _ d _ _ _ _ _ _ _ => d

def RunRecord.start_time : RunRecord → Option Nat
  | .mk _ _ _ _ _ _ s _ _ _ _ _ _ => s

def RunRecord.end_time : RunRecord → Option Nat
  | .mk _ _ _ _ _ _ _ e _ _ _ _ _ => e

def RunRecord.inputs : RunRecord → KVMap
  | .mk _ _ _ _ _ _ _ _ i _ _ _ _ => i

def RunRecord.outputs : RunRecord → Option KVMap
  | .mk _ _ _ _ _ _ _ _ _ o _ _ _ => o

def RunRecord.events : RunRecord → Option (List KVMap)
  | .mk _ _ _ _ _ _ _ _ _ _ e _ _ => e

def RunRecord.error : RunRecord → Option String
  | .mk _ _ _ _ _ _ _ _ _ _ _ e _ => e

def RunRecord.extra : RunRecord → Option KVMap
  | .mk _ _ _ _ _ _ _ _ _ _ _ _ x => x

/-- The creation payload (`RunCreate` with the fields the converter
writes).  `child_runs` is present as a field but set to `undefined`
(`none`) by the converter, exactly as the object literal in
`_convertToCreate` writes `child_runs: undefined`. -/
structure RunCreatePayload : Type where
  id : String
  parent_run_id : Option String
  child_execution_order : Nat
  trace_id : Option String
  dotted_order : Option String
  start_time : Option Nat
  end_time : Option Nat
  inputs : KVMap
  outputs : Option KVMap
  events : Option (List KVMap)
  error : Option String
  extra : Option KVMap
  child_runs : Option (List RunRecord)
  session_name : Option String
  reference_example_id : Option String

/-- The update payload (`RunUpdate`): exactly the eight fields the
`onRunUpdate` object literal writes, and no others. -/
structure RunUpdatePayload : Type where
  end_time : Option Nat
  error : Option String
  outputs : Option KVMap
  events : Option (List KVMap)
  inputs : KVMap
  trace_id : Option String
  dotted_order : Option String
  parent_run_id : Option String

/-- JavaScript truthiness of an optional string, as tested by
`run.parent_run_id ? undefined : example_id`: `undefined` and the empty
string are falsy, every other string is truthy. -/
def jsTruthyString : Option String → Bool
  | none => false
  | some s => !(s == "")

/-- The object spread `\x7b ...run.extra, runtime: rt \x7d`: the record's
`extra` entries (an absent `extra` spreads to nothing) followed by the
`runtime` binding, which shadows any earlier `runtime` entry on lookup. -/
def mergeRuntime (extra : Option KVMap) (rt : RuntimeEnv) : KVMap :=
  (extra.getD []) ++ [("runtime", rt)]

/-- `LangChainTracer._convertToCreate`: spreads the run, overrides
`extra` with the runtime-merged map, clears `child_runs`, and sets
`session_name` and the root-only `reference_example_id`.  `projectName`
is the tracker's `this.projectName`; `rt` is the awaited result of the
external `getRuntimeEnvironment()`. -/
def _convertToCreate (projectName : Option String) (run : RunRecord)
    (example_id : Option String) (rt : RuntimeEnv) : RunCreatePayload :=
  { id := run.id
    parent_run_id := run.parent_run_id
    child_execution_order := run.child_execution_order
    trace_id := run.trace_id
    dotted_order := run.dotted_order
    start_time := run.start_time
    end_time := run.end_time
    inputs := run.inputs
    outputs := run.outputs
    events := run.events
    error := run.error
    extra := some (mergeRuntime run.extra rt)
    child_runs := none
    session_name := projectName
    reference_example_id :=
      if jsTruthyString run.parent_run_id then none else example_id }

/-- The object literal built by `LangChainTracer.onRunUpdate`: the eight
mutable-on-completion fields copied verbatim from the record. -/
def runUpdateOf (run : RunRecord) : RunUpdatePayload :=
  { end_time := run.end_time
    error := run.error
    outputs := run.outputs
    events := run.events
    inputs := run.inputs
    trace_id := run.trace_id
    dotted_order := run.dotted_order
    parent_run_id := run.parent_run_id }

/-- The persistence client (external collaborator `Client`): an identity
together with its two remote operations, both fallible. -/
structure Client : Type where
  cid : Nat
  createRun : RunCreatePayload → Except String Unit
  updateRun : String → RunUpdatePayload → Except String Unit

/-- A node of the ambient, externally owned `RunTree`.  Object references
(`parent_run`, `child_runs`) are modelled by id into a finite heap; a
`RunTree` node keeps its serialized `parent_run_id` equal to the id of its
`parent_run` reference, so one field models both.  `client` is the node's
optional persistence client. -/
structure ExtNode : Type where
  id : String
  parent_run : Option String
  child_runs : List String
  client : Option Client

/-- The serialized parent id carried by an ambient node: the id of its
`parent_run` reference. -/
def ExtNode.parent_run_id (n : ExtNode) : Option String := n.parent_run

/-- The finite collection of ambient `RunTree` nodes reachable in the
current execution context (the object graph the constructor walks). -/
structure Heap : Type where
  nodes : List ExtNode

/-- Dereference a node id, as following an object reference. -/
def Heap.deref (h : Heap) (i : String) : Option ExtNode :=
  h.nodes.find? (fun n => n.id == i)

/-- The set of node ids present in the heap. -/
def Heap.ids (h : Heap) : Finset String :=
  (h.nodes.map ExtNode.id).toFinset

def Heap.deref_mem_ids (h : Heap) (i : String) (n : ExtNode)
    (hn : h.deref i = some n) : i ∈ h.ids := by
  have hfind := List.find?_some hn
  have hmem := List.mem_of_find?_eq_some hn
  have : n.id = i := by simpa using hfind
  subst this
  simp only [Heap.ids, List.mem_toFinset]
  exact List.mem_map_of_mem ExtNode.id hmem

/-- The upward root-discovery loop of the `LangChainTracer` constructor:
`while (rootRun.parent_run) \x7b if (visited.has(rootRun.id)) break;
visited.add(rootRun.id); rootRun = rootRun.parent_run \x7d`.  A node with
no parent is the root; revisiting an id stops the walk (cyclic parent
chains).  Termination is by the visited set growing inside the finite
heap — no iteration cap. -/
def findRoot (h : Heap) (i : String) (visited : Finset String) : String :=
  match hd : h.deref i with
  | none => i
  | some node =>
    match node.parent_run with
    | none => i
    | some p =>
      if i ∈ visited then i
      else
        have hmem : i ∈ h.ids := h.deref_mem_ids i node hd
        findRoot h p (insert i visited)
termination_by (h.ids \ visited).card
decreasing_by
  have hiv : i ∈ h.ids \ visited := Finset.mem_sdiff.mpr ⟨hmem, by assumption⟩
  calc (h.ids \ insert i visited).card
      = ((h.ids \ visited).erase i).card := by rw [Finset.sdiff_insert]
    _ < (h.ids \ visited).card := Finset.card_erase_lt_of_mem hiv

/-- The breadth-first flattening loop of the constructor: dequeue from the
front, skip already-visited ids, record the node into the run map, and
append its `child_runs` to the back of the queue.  Termination is by the
visited set growing inside the finite heap (first measure component) or
the queue shrinking (second) — again no iteration cap. -/
def bfsFlatten (h : Heap) (queue : List String) (visited : Finset String)
    (acc : List (String × ExtNode)) : List (String × ExtNode) :=
  match queue with
  | [] => acc
  | i :: rest =>
    if i ∈ visited then bfsFlatten h rest visited acc
    else
      match hd : h.deref i with
      | none => bfsFlatten h rest visited acc
      | some node =>
        have hmem : i ∈ h.ids := h.deref_mem_ids i node hd
        bfsFlatten h (rest ++ node.child_runs) (insert i visited)
          (acc ++ [(i, node)])
termination_by ((h.ids \ visited).card, queue.length)
decreasing_by
  · apply Prod.Lex.right
    simp
  · apply Prod.Lex.right
    simp
  · apply Prod.Lex.left
    have hiv : i ∈ h.ids \ visited := Finset.mem_sdiff.mpr ⟨hmem, by assumption⟩
    calc (h.ids \ insert i visited).card
        = ((h.ids \ visited).erase i).card := by rw [Finset.sdiff_insert]
      _ < (h.ids \ visited).card := Finset.card_erase_lt_of_mem hiv

/-- The constructor's `fields` argument (`LangChainTracerFields`). -/
structure LangChainTracerFields : Type where
  exampleId : Option String
  projectName : Option String
  client : Option Client

/-- The environment-variable lookups the constructor performs:
`LANGCHAIN_PROJECT` and `LANGCHAIN_SESSION`. -/
structure EnvVars : Type where
  langchainProject : Option String
  langchainSession : Option String

/-- Outcome of the ambient-run-tree capability probe
(`getCurrentRunTree()`): it either throws, or returns a node of the
ambient heap (by id), or returns nothing. -/
inductive ProbeResult : Type where
  | throws
  | ok (t : Option String)

/-- `LangChainTracer.getTraceableRunTree`: calls the probe and swallows
any thrown error into `undefined`. -/
def getTraceableRunTree : ProbeResult → Option String
  | .throws => none
  | .ok t => t

/-- The tracker state after construction: resolved project name, example
id, persistence client, and the run map (an id-keyed store; each id is
inserted at most once during hydration, so first-match lookup agrees with
the JS `Map`). -/
structure LangChainTracer : Type where
  projectName : Option String
  exampleId : Option String
  client : Client
  runMap : List (String × ExtNode)

/-- The `LangChainTracer` constructor: resolves `projectName` through the
`??` chain, stores `exampleId`, defaults the client, then — if the
ambient-tree probe yields a tree — walks up to the root, flattens the
tree breadth-first into the run map, and adopts the probed node's client
when it has one.  `defaultClient` stands for `new Client(\x7b\x7d)`;
`heap` is the ambient object graph the probe's node lives in. -/
def LangChainTracer.construct (fields : LangChainTracerFields)
    (env : EnvVars) (defaultClient : Client) (probe : ProbeResult)
    (heap : Heap) : LangChainTracer :=
  let projectName :=
    fields.projectName <|> env.langchainProject <|> env.langchainSession
  let client0 := fields.client.getD defaultClient
  match getTraceableRunTree probe with
  | none =>
    { projectName := projectName, exampleId := fields.exampleId
      client := client0, runMap := [] }
  | some tid =>
    let rootId := findRoot heap tid ∅
    let rm := bfsFlatten heap [rootId] ∅ []
    let client1 := ((heap.deref tid).bind ExtNode.client).getD client0
    { projectName := projectName, exampleId := fields.exampleId
      client := client1, runMap := rm }

/-- `LangChainTracer.getRun`: run-map lookup, absent is a normal result. -/
def LangChainTracer.getRun (t : LangChainTracer) (id : String) :
    Option ExtNode :=
  (t.runMap.find? (fun p => p.1 == id)).map Prod.snd

/-- `LangChainTracer.onRunCreate`: convert via `_convertToCreate` with
the tracker's `exampleId` and send to the client's `createRun`, whose
outcome is returned as is. -/
def LangChainTracer.onRunCreate (t : LangChainTracer) (run : RunRecord)
    (rt : RuntimeEnv) : Except String Unit :=
  t.client.createRun (_convertToCreate t.projectName run t.exampleId rt)

/-- `LangChainTracer.onRunUpdate`: build the update literal and send it
to the client's `updateRun` keyed by the record's id, returning the
client's outcome as is. -/
def LangChainTracer.onRunUpdate (t : LangChainTracer) (run : RunRecord) :
    Except String Unit :=
  t.client.updateRun run.id (runUpdateOf run)

/-- A function value offered to the `RunnableTraceable` constructor: it
either does or does not carry the traceable-instrumentation wrapper.  The
underlying callable is opaque. -/
inductive CandidateFunction : Type where
  | traceable (f : String → String)
  | plain (f : String → String)

/-- The capability check `isTraceableFunction` (external collaborator):
recognizes exactly the wrapped values. -/
def isTraceableFunction : CandidateFunction → Bool
  | .traceable _ => true
  | .plain _ => false

/-- A constructed `RunnableTraceable`, storing the accepted function. -/
structure RunnableTraceable : Type where
  func : CandidateFunction

/-- The `RunnableTraceable` constructor: throws a configuration error
when the capability check fails, otherwise stores the function.  The
thrown JS error is modelled by the `Except.error` case, produced before
any `invoke` is possible (no `RunnableTraceable` value exists on the
error path). -/
def RunnableTraceable.construct (func : CandidateFunction) :
    Except String RunnableTraceable :=
  if isTraceableFunction func then .ok { func := func }
  else .error
    "RunnableTraceable requires a function that is wrapped in traceable higher-order function"

/-- A three-node ambient chain: the root node `A`. -/
def nodeA (a b : String) : ExtNode :=
  { id := a, parent_run := none, child_runs := [b], client := none }

/-- The middle node `B`, child of `A` and parent of `C`. -/
def nodeB (a b c : String) : ExtNode :=
  { id := b, parent_run := some a, child_runs := [c], client := none }

/-- The leaf node `C`, child of `B`. -/
def nodeC (b c : String) : ExtNode :=
  { id := c, parent_run := some b, child_runs := [], client := none }

/-- The ambient heap holding the chain `A → B → C`. -/
def chainHeap (a b c : String) : Heap :=
  { nodes := [nodeA a b, nodeB a b c, nodeC b c] }

/-- A persistence client that accepts every call, used as the default
client in concrete instances. -/
def trivialClient : Client :=
  { cid := 0, createRun := fun _ => .ok (), updateRun := fun _ _ => .ok () }

/-- A distinguishable client carried by an ambient node. -/
def clientA : Client :=
  { cid := 1, createRun := fun _ => .ok (), updateRun := fun _ _ => .ok () }

/-- A second distinguishable client, explicitly supplied in constructor
fields. -/
def clientB : Client :=
  { cid := 2, createRun := fun _ => .ok (), updateRun := fun _ _ => .ok () }

/-- A single ambient node that carries its own persistence client. -/
def nodeWithClient : ExtNode :=
  { id := "n", parent_run := none, child_runs := [], client := some clientA }

/-- A run record whose `parent_run_id` is present but equal to the empty
string — a JS-falsy yet present parent id. -/
def emptyParentRecord : RunRecord :=
  .mk "child" (some "") [] 1 none none none none [] none none none none

/-- A run record with a present, nonempty `parent_run_id`. -/
def childRecord : RunRecord :=
  .mk "child2" (some "p") [] 1 none none none none [] none none none none

/-- A malformed ambient node: `B` whose parent pointer erroneously points
back to `C`. -/
def cyclicNodeB : ExtNode :=
  { id := "B", parent_run := some "C", child_runs := ["C"], client := none }

/-- A malformed ambient node: `C` whose child list contains `B` while `B`
claims `C` as parent — a cycle in both directions. -/
def cyclicNodeC : ExtNode :=
  { id := "C", parent_run := some "B", child_runs := ["B"], client := none }

/-- The two-node cyclic ambient heap. -/
def cyclicHeap : Heap :=
  { nodes := [cyclicNodeB, cyclicNodeC] }

theorem findRoot_deref_none {h : Heap} {i : String} {v : Finset String}
    (hd : h.deref i = none) : findRoot h i v = i := by
  rw [findRoot]
  split
  · rfl
  · rename_i node hsome
    rw [hd] at hsome
    cases hsome

theorem findRoot_no_parent {h : Heap} {i : String} {v : Finset String}
    {n : ExtNode} (hd : h.deref i = some n) (hp : n.parent_run = none) :
    findRoot h i v = i := by
  rw [findRoot]
  split
  · rfl
  · rename_i node hsome
    rw [hd] at hsome
    cases hsome
    rw [hp]

theorem findRoot_visited {h : Heap} {i : String} {v : Finset String}
    {n : ExtNode} {p : String} (hd : h.deref i = some n)
    (hp : n.parent_run = some p) (hv : i ∈ v) : findRoot h i v = i := by
  rw [findRoot]
  split
  · rfl
  · rename_i node hsome
    rw [hd] at hsome
    cases hsome
    rw [hp]
    simp only [if_pos hv]

theorem findRoot_step {h : Heap} {i : String} {v : Finset String}
    {n : ExtNode} {p : String} (hd : h.deref i = some n)
    (hp : n.parent_run = some p) (hv : i ∉ v) :
    findRoot h i v = findRoot h p (insert i v) := by
  rw [findRoot]
  split
  · rename_i hnone
    rw [hd] at hnone
    cases hnone
  · rename_i node hsome
    rw [hd] at hsome
    cases hsome
    rw [hp]
    simp only [if_neg hv]

theorem bfsFlatten_nil {h : Heap} {v : Finset String}
    {acc : List (String × ExtNode)} : bfsFlatten h [] v acc = acc := by
  rw [bfsFlatten]

theorem bfsFlatten_visited {h : Heap} {i : String} {rest : List String}
    {v : Finset String} {acc : List (String × ExtNode)} (hv : i ∈ v) :
    bfsFlatten h (i :: rest) v acc = bfsFlatten h rest v acc := by
  rw [bfsFlatten]
  simp only [if_pos hv]

theorem bfsFlatten_deref_none {h : Heap} {i : String} {rest : List String}
    {v : Finset String} {acc : List (String × ExtNode)} (hv : i ∉ v)
    (hd : h.deref i = none) :
    bfsFlatten h (i :: rest) v acc = bfsFlatten h rest v acc := by
  rw [bfsFlatten]
  simp only [if_neg hv]
  split
  · rfl
  · rename_i node hsome
    rw [hd] at hsome
    cases hsome

theorem bfsFlatten_visit {h : Heap} {i : String} {rest : List String}
    {v : Finset String} {acc : List (String × ExtNode)} {n : ExtNode}
    (hv : i ∉ v) (hd : h.deref i = some n) :
    bfsFlatten h (i :: rest) v acc =
      bfsFlatten h (rest ++ n.child_runs) (insert i v) (acc ++ [(i, n)]) := by
  rw [bfsFlatten]
  simp only [if_neg hv]
  split
  · rename_i hnone
    rw [hd] at hnone
    cases hnone
  · rename_i node hsome
    rw [hd] at hsome
    cases hsome
    rfl

theorem bfsFlatten_inv (h : Heap) (queue : List String)
    (visited : Finset String) (acc : List (String × ExtNode)) :
    (acc.map Prod.fst).Nodup →
    (∀ k ∈ acc.map Prod.fst, k ∈ visited) →
    ((bfsFlatten h queue visited acc).map Prod.fst).Nodup ∧
    (∀ k ∈ (bfsFlatten h queue visited acc).map Prod.fst,
      k ∈ visited ∨ k ∈ h.ids) := by
  induction queue, visited, acc using bfsFlatten.induct h with
  | case1 v acc =>
    intro h1 h2
    rw [bfsFlatten_nil]
    exact ⟨h1, fun k hk => Or.inl (h2 k hk)⟩
  | case2 v acc i rest hv ih =>
    intro h1 h2
    rw [bfsFlatten_visited hv]
    exact ih h1 h2
  | case3 v acc i rest hv hd ih =>
    intro h1 h2
    rw [bfsFlatten_deref_none hv hd]
    exact ih h1 h2
  | case4 v acc i rest hv n hd hmem ih =>
    intro h1 h2
    rw [bfsFlatten_visit hv hd]
    have h1' : ((acc ++ [(i, n)]).map Prod.fst).Nodup := by
      rw [List.map_append]
      refine List.Nodup.append h1 (by simp) ?_
      intro x hx hy
      simp at hy
      subst hy
      exact hv (h2 x hx)
    have h2' : ∀ k ∈ (acc ++ [(i, n)]).map Prod.fst, k ∈ insert i v := by
      intro k hk
      rw [List.map_append] at hk
      rcases List.mem_append.mp hk with hk | hk
      · exact Finset.mem_insert_of_mem (h2 k hk)
      · simp at hk
        rw [hk]
        exact Finset.mem_insert_self _ _
    rcases ih h1' h2' with ⟨ha, hb⟩
    refine ⟨ha, fun k hk => ?_⟩
    rcases hb k hk with hk' | hk'
    · rcases Finset.mem_insert.mp hk' with rfl | hk''
      · exact Or.inr hmem
      · exact Or.inl hk''
    · exact Or.inr hk'

/-- C1, counterexample.  The claim says the creation payload carries the
configured example id exactly when `parent_run_id` is absent.  The code
tests JS truthiness, not absence: a record whose `parent_run_id` is
present but equal to the empty string still gets `reference_example_id`
set. -/
theorem convertToCreate_refExample_counterexample :
    (_convertToCreate none emptyParentRecord (some "ex")
      "rt").reference_example_id = some "ex" ∧
    emptyParentRecord.parent_run_id ≠ none :=
  ⟨rfl, by simp [emptyParentRecord, RunRecord.parent_run_id]⟩

/-- C1, amended.  For every run record and configured example id, the
creation payload sets `reference_example_id` to the example id exactly
when the record's `parent_run_id` is JS-falsy — absent or the empty
string; for any record with a nonempty `parent_run_id` it is absent even
though an example id was supplied. -/
theorem convertToCreate_refExample_root_only (pn : Option String)
    (r : RunRecord) (e : String) (rt : RuntimeEnv) :
    ((_convertToCreate pn r (some e) rt).reference_example_id = some e ↔
      (r.parent_run_id = none ∨ r.parent_run_id = some "")) ∧
    (∀ s, s ≠ "" → r.parent_run_id = some s →
      (_convertToCreate pn r (some e) rt).reference_example_id = none) := by
  constructor
  · cases hr : r.parent_run_id with
    | none => simp [_convertToCreate, jsTruthyString, hr]
    | some s =>
      by_cases hs : s = ""
      · subst hs
        simp [_convertToCreate, jsTruthyString, hr]
      · simp [_convertToCreate, jsTruthyString, hr, hs]
  · intro s hs hr
    simp [_convertToCreate, jsTruthyString, hr, hs]

/-- C1, witness for the amended theorem: a record with the nonempty
parent id of `childRecord` gets no `reference_example_id` even with an
example id configured. -/
theorem convertToCreate_refExample_root_only_witness :
    (_convertToCreate none childRecord (some "ex")
      "rt").reference_example_id = none :=
  (convertToCreate_refExample_root_only none childRecord "ex" "rt").2 "p"
    (by simp) rfl

/-- C2: the creation payload copies every record field verbatim except
that `child_runs` is cleared, `extra` is the record's `extra` merged with
the `runtime` introspection entry, and `session_name` is the tracker's
configured project name. -/
theorem convertToCreate_fields (pn : Option String) (r : RunRecord)
    (ex : Option String) (rt : RuntimeEnv) :
    (_convertToCreate pn r ex rt).id = r.id ∧
    (_convertToCreate pn r ex rt).parent_run_id = r.parent_run_id ∧
    (_convertToCreate pn r ex rt).child_execution_order =
      r.child_execution_order ∧
    (_convertToCreate pn r ex rt).trace_id = r.trace_id ∧
    (_convertToCreate pn r ex rt).dotted_order = r.dotted_order ∧
    (_convertToCreate pn r ex rt).start_time = r.start_time ∧
    (_convertToCreate pn r ex rt).end_time = r.end_time ∧
    (_convertToCreate pn r ex rt).inputs = r.inputs ∧
    (_convertToCreate pn r ex rt).outputs = r.outputs ∧
    (_convertToCreate pn r ex rt).events = r.events ∧
    (_convertToCreate pn r ex rt).error = r.error ∧
    (_convertToCreate pn r ex rt).child_runs = none ∧
    (_convertToCreate pn r ex rt).extra = some (mergeRuntime r.extra rt) ∧
    (_convertToCreate pn r ex rt).session_name = pn :=
  ⟨rfl, rfl, rfl, rfl, rfl, rfl, rfl, rfl, rfl, rfl, rfl, rfl, rfl, rfl⟩

/-- C3: the update payload consists exactly of `end_time`, `error`,
`outputs`, `events`, `inputs`, `trace_id`, `dotted_order`, and
`parent_run_id` (the `RunUpdatePayload` type has no other fields — in
particular no `session_name`, `child_runs`, or `reference_example_id`),
each copied verbatim from the record, and `onRunUpdate` sends it keyed by
the record's id. -/
theorem onRunUpdate_payload_fields (t : LangChainTracer) (r : RunRecord) :
    (runUpdateOf r).end_time = r.end_time ∧
    (runUpdateOf r).error = r.error ∧
    (runUpdateOf r).outputs = r.outputs ∧
    (runUpdateOf r).events = r.events ∧
    (runUpdateOf r).inputs = r.inputs ∧
    (runUpdateOf r).trace_id = r.trace_id ∧
    (runUpdateOf r).dotted_order = r.dotted_order ∧
    (runUpdateOf r).parent_run_id = r.parent_run_id ∧
    t.onRunUpdate r = t.client.updateRun r.id (runUpdateOf r) :=
  ⟨rfl, rfl, rfl, rfl, rfl, rfl, rfl, rfl, rfl⟩

/-- C9: `onRunCreate` and `onRunUpdate` return exactly the persistence
client's outcome for the converted payload — they fail precisely when
the client call fails, with the client's error unchanged. -/
theorem onRun_failure_propagation (t : LangChainTracer) (r : RunRecord)
    (rt : RuntimeEnv) (e : String) :
    (t.onRunCreate r rt = .error e ↔
      t.client.createRun
        (_convertToCreate t.projectName r t.exampleId rt) = .error e) ∧
    (t.onRunUpdate r = .error e ↔
      t.client.updateRun r.id (runUpdateOf r) = .error e) :=
  ⟨Iff.rfl, Iff.rfl⟩

/-- C8: the `RunnableTraceable` constructor throws a configuration error
for any function failing the traceable capability check — before any
`invoke` is possible, since no adapter value is produced — and stores
the function when the check passes. -/
theorem runnableTraceable_capability_check (f : CandidateFunction) :
    (isTraceableFunction f = false →
      RunnableTraceable.construct f = .error
        "RunnableTraceable requires a function that is wrapped in traceable higher-order function") ∧
    (isTraceableFunction f = true →
      RunnableTraceable.construct f = .ok { func := f }) := by
  cases f <;> simp [isTraceableFunction, RunnableTraceable.construct]

/-- C8, witness: a plain function is rejected with the configuration
error; a traceable-wrapped one is accepted and stored. -/
theorem runnableTraceable_capability_check_witness :
    RunnableTraceable.construct (.plain fun s => s) = .error
      "RunnableTraceable requires a function that is wrapped in traceable higher-order function" ∧
    RunnableTraceable.construct (.traceable fun s => s) =
      .ok { func := .traceable fun s => s } :=
  ⟨(runnableTraceable_capability_check (.plain fun s => s)).1 rfl,
   (runnableTraceable_capability_check (.traceable fun s => s)).2 rfl⟩

theorem construct_runMap_eq (fields : LangChainTracerFields)
    (env : EnvVars) (dflt : Client) (heap : Heap) (tid : String) :
    (LangChainTracer.construct fields env dflt (.ok (some tid))
      heap).runMap = bfsFlatten heap [findRoot heap tid ∅] ∅ [] := rfl

/-- C5: for every finite ambient heap — cyclic parent chains and cyclic
or duplicated child references included — both construction-time walks
terminate (they are total functions, defined by well-founded recursion on
the visited set growing inside the finite heap, with no iteration cap),
and the flattening walk inserts each node id into the run map at most
once, every inserted id being an id of a heap node. -/
theorem construct_hydration_visits_once (fields : LangChainTracerFields)
    (env : EnvVars) (dflt : Client) (heap : Heap) (tid : String) :
    (((LangChainTracer.construct fields env dflt (.ok (some tid))
        heap).runMap.map Prod.fst).Nodup) ∧
    (∀ k ∈ (LangChainTracer.construct fields env dflt (.ok (some tid))
        heap).runMap.map Prod.fst, k ∈ heap.ids) := by
  rw [construct_runMap_eq]
  have hinv := bfsFlatten_inv heap [findRoot heap tid ∅] ∅ []
    (by simp) (by simp)
  refine ⟨hinv.1, fun k hk => ?_⟩
  rcases hinv.2 k hk with hk' | hk'
  · exact absurd hk' (Finset.not_mem_empty k)
  · exact hk'

/-- C6: when the ambient-run-tree probe throws or reports no tree,
construction still yields a tracker (the failure is swallowed by
`getTraceableRunTree`), its run map is empty, and `getRun` is absent on
every id. -/
theorem construct_probe_failure_empty (fields : LangChainTracerFields)
    (env : EnvVars) (dflt : Client) (probe : ProbeResult) (heap : Heap)
    (hp : getTraceableRunTree probe = none) :
    (LangChainTracer.construct fields env dflt probe heap).runMap = [] ∧
    ∀ i, (LangChainTracer.construct fields env dflt probe heap).getRun i =
      none := by
  have hrm :
      (LangChainTracer.construct fields env dflt probe heap).runMap = [] := by
    simp [LangChainTracer.construct, hp]
  refine ⟨hrm, fun i => ?_⟩
  simp [LangChainTracer.getRun, hrm]

/-- C6, witness: a throwing probe over an empty ambient heap; `getRun`
instantiated at the id `r1`. -/
theorem construct_probe_failure_empty_witness :
    (LangChainTracer.construct ⟨none, none, none⟩ ⟨none, none⟩
      trivialClient .throws ⟨[]⟩).runMap = [] ∧
    (LangChainTracer.construct ⟨none, none, none⟩ ⟨none, none⟩
      trivialClient .throws ⟨[]⟩).getRun "r1" = none :=
  ⟨(construct_probe_failure_empty ⟨none, none, none⟩ ⟨none, none⟩
      trivialClient .throws ⟨[]⟩ rfl).1,
   (construct_probe_failure_empty ⟨none, none, none⟩ ⟨none, none⟩
      trivialClient .throws ⟨[]⟩ rfl).2 "r1"⟩

/-- C7: if the probe yields an ambient node that carries a persistence
client, the constructed tracker adopts that client; if the node carries
none, or the probe yields no tree, the tracker keeps the client it had
before the merge step (the explicitly supplied one, defaulted to
`new Client`). -/
theorem construct_client_adoption (fields : LangChainTracerFields)
    (env : EnvVars) (dflt : Client) (probe : ProbeResult) (heap : Heap) :
    (∀ tid cl, getTraceableRunTree probe = some tid →
      (heap.deref tid).bind ExtNode.client = some cl →
      (LangChainTracer.construct fields env dflt probe heap).client = cl) ∧
    (∀ tid, getTraceableRunTree probe = some tid →
      (heap.deref tid).bind ExtNode.client = none →
      (LangChainTracer.construct fields env dflt probe heap).client =
        fields.client.getD dflt) ∧
    (getTraceableRunTree probe = none →
      (LangChainTracer.construct fields env dflt probe heap).client =
        fields.client.getD dflt) := by
  refine ⟨fun tid cl hp hcl => ?_, fun tid hp hcl => ?_, fun hp => ?_⟩
  · simp [LangChainTracer.construct, hp, hcl]
  · simp [LangChainTracer.construct, hp, hcl]
  · simp [LangChainTracer.construct, hp]

/-- C7, witness: the ambient node `nodeWithClient` carries `clientA`,
which the tracker adopts; with no ambient tree the supplied client is
kept. -/
theorem construct_client_adoption_witness :
    (LangChainTracer.construct ⟨none, none, none⟩ ⟨none, none⟩
      trivialClient (.ok (some "n")) ⟨[nodeWithClient]⟩).client = clientA ∧
    (LangChainTracer.construct ⟨none, none, some clientB⟩ ⟨none, none⟩
      trivialClient (.ok none) ⟨[nodeWithClient]⟩).client = clientB :=
  ⟨(construct_client_adoption ⟨none, none, none⟩ ⟨none, none⟩
      trivialClient (.ok (some "n")) ⟨[nodeWithClient]⟩).1 "n" clientA
      rfl rfl,
   (construct_client_adoption ⟨none, none, some clientB⟩ ⟨none, none⟩
      trivialClient (.ok none) ⟨[nodeWithClient]⟩).2.2 rfl⟩

/-- C10: even when a client is explicitly supplied in the constructor
fields, an ambient tree carrying its own client wins — adoption
overrides the explicitly configured client, not only the built-in
default. -/
theorem construct_ambient_overrides_explicit_client
    (fields : LangChainTracerFields) (env : EnvVars) (dflt cl0 : Client)
    (probe : ProbeResult) (heap : Heap) (tid : String) (cl : Client)
    (hexp : fields.client = some cl0)
    (hp : getTraceableRunTree probe = some tid)
    (hcl : (heap.deref tid).bind ExtNode.client = some cl) :
    (LangChainTracer.construct fields env dflt probe heap).client = cl := by
  simp [LangChainTracer.construct, hp, hcl]

/-- C10, witness: `clientB` is supplied explicitly, the ambient node
carries `clientA`, and the tracker ends up with `clientA`, which is a
different client than `clientB`. -/
theorem construct_ambient_overrides_explicit_client_witness :
    (LangChainTracer.construct ⟨none, none, some clientB⟩ ⟨none, none⟩
      trivialClient (.ok (some "n")) ⟨[nodeWithClient]⟩).client = clientA ∧
    clientA ≠ clientB :=
  ⟨construct_ambient_overrides_explicit_client ⟨none, none, some clientB⟩
      ⟨none, none⟩ trivialClient clientB (.ok (some "n"))
      ⟨[nodeWithClient]⟩ "n" clientA rfl rfl rfl,
   fun hc => by simpa [clientA, clientB] using congrArg Client.cid hc⟩

theorem chain_deref_a (a b c : String) :
    (chainHeap a b c).deref a = some (nodeA a b) := by
  simp [chainHeap, Heap.deref, nodeA, List.find?]

theorem chain_deref_b (a b c : String) (hab : a ≠ b) :
    (chainHeap a b c).deref b = some (nodeB a b c) := by
  have hf : (a == b) = false := beq_eq_false_iff_ne.mpr hab
  simp [chainHeap, Heap.deref, nodeA, nodeB, List.find?, hf]

theorem chain_deref_c (a b c : String) (hac : a ≠ c) (hbc : b ≠ c) :
    (chainHeap a b c).deref c = some (nodeC b c) := by
  have hf1 : (a == c) = false := beq_eq_false_iff_ne.mpr hac
  have hf2 : (b == c) = false := beq_eq_false_iff_ne.mpr hbc
  simp [chainHeap, Heap.deref, nodeA, nodeB, nodeC, List.find?, hf1, hf2]

theorem chain_findRoot (a b c x : String) (hab : a ≠ b) (hac : a ≠ c)
    (hbc : b ≠ c) (hx : x = a ∨ x = b ∨ x = c) :
    findRoot (chainHeap a b c) x ∅ = a := by
  rcases hx with rfl | rfl | rfl
  · exact findRoot_no_parent (chain_deref_a x b c) rfl
  · rw [findRoot_step (chain_deref_b a x c hab) rfl (Finset.not_mem_empty x)]
    exact findRoot_no_parent (chain_deref_a a x c) rfl
  · rw [findRoot_step (chain_deref_c a b x hac hbc) rfl
      (Finset.not_mem_empty x)]
    rw [findRoot_step (chain_deref_b a b x hab) rfl
      (by simp [hbc] : b ∉ insert x ∅)]
    exact findRoot_no_parent (chain_deref_a a b x) rfl

theorem chain_bfsFlatten (a b c : String) (hab : a ≠ b) (hac : a ≠ c)
    (hbc : b ≠ c) :
    bfsFlatten (chainHeap a b c) [a] ∅ [] =
      [(a, nodeA a b), (b, nodeB a b c), (c, nodeC b c)] := by
  have hba : b ≠ a := Ne.symm hab
  have hca : c ≠ a := Ne.symm hac
  have hcb : c ≠ b := Ne.symm hbc
  rw [bfsFlatten_visit (Finset.not_mem_empty a) (chain_deref_a a b c)]
  simp only [nodeA, List.nil_append]
  rw [bfsFlatten_visit (by simp [hba] : b ∉ insert a ∅)
    (chain_deref_b a b c hab)]
  simp only [nodeB, List.nil_append]
  rw [bfsFlatten_visit (by simp [hca, hcb] : c ∉ insert b (insert a ∅))
    (chain_deref_c a b c hac hbc)]
  simp only [nodeC, List.nil_append, List.append_nil]
  rw [bfsFlatten_nil]
  simp [nodeA, nodeB, nodeC]

/-- C4: constructing a tracker while the ambient tree is the acyclic
chain `A → B → C`, with the probe returning any node of the chain,
hydrates the run map with exactly the three entries keyed by the three
ids, each mapped to its own node, and `getRun` on `B`'s id returns `B`'s
record whose `parent_run_id` is `A`'s id. -/
theorem construct_chain_hydration (a b c : String)
    (fields : LangChainTracerFields) (env : EnvVars) (dflt : Client)
    (x : String) (hab : a ≠ b) (hac : a ≠ c) (hbc : b ≠ c)
    (hx : x = a ∨ x = b ∨ x = c) :
    (LangChainTracer.construct fields env dflt (.ok (some x))
        (chainHeap a b c)).runMap =
      [(a, nodeA a b), (b, nodeB a b c), (c, nodeC b c)] ∧
    (LangChainTracer.construct fields env dflt (.ok (some x))
        (chainHeap a b c)).getRun a = some (nodeA a b) ∧
    (LangChainTracer.construct fields env dflt (.ok (some x))
        (chainHeap a b c)).getRun b = some (nodeB a b c) ∧
    (LangChainTracer.construct fields env dflt (.ok (some x))
        (chainHeap a b c)).getRun c = some (nodeC b c) ∧
    ((LangChainTracer.construct fields env dflt (.ok (some x))
        (chainHeap a b c)).getRun b).map ExtNode.parent_run_id =
      some (some a) := by
  have hba : b ≠ a := Ne.symm hab
  have hca : c ≠ a := Ne.symm hac
  have hcb : c ≠ b := Ne.symm hbc
  have hrm : (LangChainTracer.construct fields env dflt (.ok (some x))
      (chainHeap a b c)).runMap =
      [(a, nodeA a b), (b, nodeB a b c), (c, nodeC b c)] := by
    rw [construct_runMap_eq, chain_findRoot a b c x hab hac hbc hx,
      chain_bfsFlatten a b c hab hac hbc]
  have hfa : ((a : String) == a) = true := beq_self_eq_true a
  have hfb : ((a : String) == b) = false := beq_eq_false_iff_ne.mpr hab
  have hfc : ((a : String) == c) = false := beq_eq_false_iff_ne.mpr hac
  have hfbc : ((b : String) == c) = false := beq_eq_false_iff_ne.mpr hbc
  have hga : (LangChainTracer.construct fields env dflt (.ok (some x))
      (chainHeap a b c)).getRun a = some (nodeA a b) := by
    simp [LangChainTracer.getRun, hrm, List.find?]
  have hgb : (LangChainTracer.construct fields env dflt (.ok (some x))
      (chainHeap a b c)).getRun b = some (nodeB a b c) := by
    simp [LangChainTracer.getRun, hrm, List.find?, hfb]
  have hgc : (LangChainTracer.construct fields env dflt (.ok (some x))
      (chainHeap a b c)).getRun c = some (nodeC b c) := by
    simp [LangChainTracer.getRun, hrm, List.find?, hfc, hfbc]
  refine ⟨hrm, hga, hgb, hgc, ?_⟩
  rw [hgb]
  rfl

/-- C4, witness: the chain with ids `A`, `B`, `C` probed at `B`. -/
theorem construct_chain_hydration_witness :
    (LangChainTracer.construct ⟨none, none, none⟩ ⟨none, none⟩
        trivialClient (.ok (some "B")) (chainHeap "A" "B" "C")).runMap =
      [("A", nodeA "A" "B"), ("B", nodeB "A" "B" "C"),
        ("C", nodeC "B" "C")] ∧
    (LangChainTracer.construct ⟨none, none, none⟩ ⟨none, none⟩
        trivialClient (.ok (some "B")) (chainHeap "A" "B" "C")).getRun "A" =
      some (nodeA "A" "B") ∧
    (LangChainTracer.construct ⟨none, none, none⟩ ⟨none, none⟩
        trivialClient (.ok (some "B")) (chainHeap "A" "B" "C")).getRun "B" =
      some (nodeB "A" "B" "C") ∧
    (LangChainTracer.construct ⟨none, none, none⟩ ⟨none, none⟩
        trivialClient (.ok (some "B")) (chainHeap "A" "B" "C")).getRun "C" =
      some (nodeC "B" "C") ∧
    ((LangChainTracer.construct ⟨none, none, none⟩ ⟨none, none⟩
        trivialClient (.ok (some "B")) (chainHeap "A" "B" "C")).getRun
        "B").map ExtNode.parent_run_id = some (some "A") :=
  construct_chain_hydration "A" "B" "C" ⟨none, none, none⟩ ⟨none, none⟩
    trivialClient "B" (by decide) (by decide) (by decide)
    (Or.inr (Or.inl rfl))

theorem cyclic_findRoot : findRoot cyclicHeap "B" ∅ = "B" := by
  rw [findRoot_step (show cyclicHeap.deref "B" = some cyclicNodeB from rfl)
    rfl (Finset.not_mem_empty _)]
  rw [findRoot_step (show cyclicHeap.deref "C" = some cyclicNodeC from rfl)
    rfl (by decide : "C" ∉ insert "B" (∅ : Finset String))]
  exact findRoot_visited
    (show cyclicHeap.deref "B" = some cyclicNodeB from rfl) rfl
    (by decide)

theorem cyclic_runMap :
    (LangChainTracer.construct ⟨none, none, none⟩ ⟨none, none⟩
      trivialClient (.ok (some "B")) cyclicHeap).runMap =
      [("B", cyclicNodeB), ("C", cyclicNodeC)] := by
  rw [construct_runMap_eq, cyclic_findRoot]
  rw [bfsFlatten_visit (Finset.not_mem_empty _)
    (show cyclicHeap.deref "B" = some cyclicNodeB from rfl)]
  simp only [cyclicNodeB, List.nil_append]
  rw [bfsFlatten_visit (by decide : "C" ∉ insert "B" (∅ : Finset String))
    (show cyclicHeap.deref "C" = some cyclicNodeC from rfl)]
  simp only [cyclicNodeC, List.nil_append]
  rw [bfsFlatten_visited
    (by decide : "B" ∈ insert "C" (insert "B" (∅ : Finset String)))]
  rw [bfsFlatten_nil]
  simp [cyclicNodeB, cyclicNodeC]

/-- C5, witness: on the malformed cyclic two-node heap, hydration
terminates with each node inserted once; instantiated at the id `B`,
which the walk inserted and which is an id of the heap. -/
theorem construct_hydration_visits_once_witness :
    (((LangChainTracer.construct ⟨none, none, none⟩ ⟨none, none⟩
        trivialClient (.ok (some "B")) cyclicHeap).runMap.map
        Prod.fst).Nodup) ∧
    "B" ∈ cyclicHeap.ids :=
  ⟨(construct_hydration_visits_once ⟨none, none, none⟩ ⟨none, none⟩
      trivialClient cyclicHeap "B").1,
   (construct_hydration_visits_once ⟨none, none, none⟩ ⟨none, none⟩
      trivialClient cyclicHeap "B").2 "B"
      (by rw [cyclic_runMap]; decide)⟩
